import Mathlib

/-!
Verification of the emoji-mix plugin (`src/main.py`) against its
natural-language specification.  The Python source is shallowly embedded:
strings of the host language are modelled as `String`, Python strings of
code points (as iterated by `for char in s`) as `List Nat`, fallible
operations as `Option`/`Except`, and the network as an explicit outcome
assignment per URL.
-/

namespace EmojiMix

/-! ### Hex identifier encoder: embedding of `_get_emoji_hex_code` -/

/-- One lowercase hexadecimal digit, as produced by Python `f'{n:x}'`. -/
def hexDigitChar (n : Nat) : Char :=
  if n < 10 then Char.ofNat (48 + n) else Char.ofNat (87 + n)

/-- Fuel-driven most-significant-first hex digit accumulation. -/
def natToHexCore : Nat → Nat → List Char → List Char
  | 0, _, acc => acc
  | fuel + 1, n, acc =>
    if n < 16 then hexDigitChar n :: acc
    else natToHexCore fuel (n / 16) (hexDigitChar (n % 16) :: acc)

/-- Python `f'{n:x}'`: lowercase hexadecimal rendering of `n`, no padding. -/
def natToHex (n : Nat) : String :=
  String.mk (natToHexCore (n + 1) n [])

/-- Python `s.index(c)` starting from position `i` (helper). -/
def pyIndexAux : List Nat → Nat → Nat → Option Nat
  | [], _, _ => none
  | c :: rest, t, i => if c = t then some i else pyIndexAux rest t (i + 1)

/-- Python `s.index(c)`: first index of code point `c` in `s`;
`none` models the `ValueError` raised when `c` is absent. -/
def pyIndex (l : List Nat) (t : Nat) : Option Nat := pyIndexAux l t 0

/-- The `for char in emoji_char` loop of `_get_emoji_hex_code` (main.py
lines 41-50).  The first argument is the remaining characters of the
*original* string being iterated (reassigning `emoji_char` in the Python
body does not change the loop's iterable); the second argument is the
current value of the `emoji_char` variable, which the surrogate branch
reassigns to a suffix of itself.  `none` models an exception reaching the
`except` clause (a `ValueError` from `.index`). -/
def hexLoop : List Nat → List Nat → Option (List String)
  | [], _ => some []
  | ch :: rest, ec =>
    if 0xD800 ≤ ch ∧ ch ≤ 0xDBFF then
      match pyIndex ec ch with
      | none => none
      | some i =>
        match ec.get? (i + 1) with
        | some nxt =>
          if 0xDC00 ≤ nxt ∧ nxt ≤ 0xDFFF then
            (hexLoop rest (ec.drop (i + 1))).map
              (fun tl => natToHex ((ch - 0xD800) * 0x400 + (nxt - 0xDC00) + 0x10000) :: tl)
          else (hexLoop rest ec).map (fun tl => natToHex ch :: tl)
        | none => (hexLoop rest ec).map (fun tl => natToHex ch :: tl)
    else (hexLoop rest ec).map (fun tl => natToHex ch :: tl)

/-- Python `'-'.join(l)`. -/
def hyphenJoin : List String → String
  | [] => ""
  | [s] => s
  | s :: rest => s ++ "-" ++ hyphenJoin rest

/-- Embedding of `_get_emoji_hex_code` (main.py lines 34-66): run the
code-point loop, filter out the `'200d'` and `'fe0f'` hex codes, fail on an
empty filtered list, otherwise join with `'-'`.  `none` covers both the
`return None` paths and the `except` path. -/
def getEmojiHexCode (s : List Nat) : Option String :=
  match hexLoop s s with
  | none => none
  | some hexCodes =>
    match hexCodes.filter (fun c => c != "200d" && c != "fe0f") with
    | [] => none
    | c :: rest => some (hyphenJoin (c :: rest))

/-! ### Python string primitives

Python compares strings lexicographically by code point; these
structurally-recursive definitions model `<`, `startswith`, slicing and
`len` on the code-point sequence (Lean's built-in `String.lt` decision
procedure is iterator-based and is avoided so that everything evaluates). -/

/-- Lexicographic code-point comparison of character lists. -/
def listLtB : List Char → List Char → Bool
  | [], [] => false
  | [], _ :: _ => true
  | _ :: _, [] => false
  | a :: as, b :: bs => if a < b then true else if b < a then false else listLtB as bs

/-- Python `a < b` on strings. -/
def strLt (a b : String) : Bool := listLtB a.data b.data

/-- Python `s.startswith(p)`. -/
def pyStartsWith (s p : String) : Bool := p.data.isPrefixOf s.data

/-- Python `s[n:]` (by code points). -/
def pyDrop (s : String) (n : Nat) : String := String.mk (s.data.drop n)

/-- Python `len(s)` (code points). -/
def pyLen (s : String) : Nat := s.data.length

/-! ### Candidate URL generator: embedding of main.py lines 79-92 -/

/-- One piece of a Python format template: literal text or a `{key}` field. -/
inductive TPart
  | lit (s : String)
  | key (k : String)
deriving DecidableEq

/-- Python `template.format(date_code=d, hex1=h1, hex2=h2)`: substitute the
three recognized keys; an unrecognized key raises `KeyError`, modelled as
`Except.error` carrying the offending key. -/
def formatTemplate : List TPart → String → String → String → Except String String
  | [], _, _, _ => Except.ok ""
  | TPart.lit s :: rest, d, h1, h2 => (formatTemplate rest d h1 h2).map (fun t => s ++ t)
  | TPart.key k :: rest, d, h1, h2 =>
    if k = "date_code" then (formatTemplate rest d h1 h2).map (fun t => d ++ t)
    else if k = "hex1" then (formatTemplate rest d h1 h2).map (fun t => h1 ++ t)
    else if k = "hex2" then (formatTemplate rest d h1 h2).map (fun t => h2 ++ t)
    else Except.error k

/-- `DEFAULT_BASE_URL_TEMPLATE` (main.py line 14), split into parts:
`"https://www.gstatic.com/android/keyboard/emojikitchen/{date_code}/u{hex1}/u{hex1}_u{hex2}.png"`. -/
def defaultTemplate : List TPart :=
  [TPart.lit "https://www.gstatic.com/android/keyboard/emojikitchen/",
   TPart.key "date_code", TPart.lit "/u", TPart.key "hex1",
   TPart.lit "/u", TPart.key "hex1", TPart.lit "_u", TPart.key "hex2",
   TPart.lit ".png"]

/-- The URL the default template yields for revision `d` and hexes `h1`, `h2`. -/
def defaultUrl (d h1 h2 : String) : String :=
  "https://www.gstatic.com/android/keyboard/emojikitchen/" ++ d ++ "/u" ++ h1
    ++ "/u" ++ h1 ++ "_u" ++ h2 ++ ".png"

/-- The template references a substitution key other than the three the code
supplies (`date_code`, `hex1`, `hex2`). -/
def hasUnknownKey (tpl : List TPart) : Prop :=
  ∃ k, TPart.key k ∈ tpl ∧ k ≠ "date_code" ∧ k ≠ "hex1" ∧ k ≠ "hex2"

/-- The `for date_code in self.date_codes` loop of
`_find_emoji_kitchen_url_async` (main.py lines 80-92): per revision, format
one URL with the lexicographically larger hex moved to the `hex2` slot
(Python `hex1 > hex2 and hex1 != hex2` is `strLt hex2 hex1 && hex1 != hex2`);
a `KeyError` makes the whole function `return None`. -/
def buildUrlsGo (tpl : List TPart) (hex1 hex2 : String) : List String → Option (List String)
  | [] => some []
  | d :: rest =>
    match (if strLt hex2 hex1 && hex1 != hex2
           then formatTemplate tpl d hex2 hex1
           else formatTemplate tpl d hex1 hex2) with
    | Except.error _ => none
    | Except.ok u => (buildUrlsGo tpl hex1 hex2 rest).map (fun l => u :: l)

/-- The full `urls_to_check` list built by main.py lines 79-92. -/
def buildUrls (tpl : List TPart) (dateCodes : List String) (hex1 hex2 : String) :
    Option (List String) :=
  buildUrlsGo tpl hex1 hex2 dateCodes

/-! ### Existence prober: embedding of main.py lines 94-103 -/

/-- Outcome of one `session.head(url)` probe: an HTTP status, an
`asyncio.TimeoutError`, or an `aiohttp.ClientError`. -/
inductive ProbeOutcome
  | status (code : Nat)
  | timeout
  | netError
deriving DecidableEq

/-- Only status 200 makes the loop `return url` (main.py line 97). -/
def isHit : ProbeOutcome → Bool
  | ProbeOutcome.status c => c == 200
  | _ => false

/-- The `for url in urls_to_check` loop (main.py lines 94-103), instrumented:
first component is the returned URL (if any), second the list of URLs for
which a request was actually issued, in order.  Timeouts, network errors and
non-200 statuses all just fall through to the next candidate. -/
def probeUrls (f : String → ProbeOutcome) : List String → Option String × List String
  | [] => (none, [])
  | u :: rest =>
    if isHit (f u) then (some u, [u])
    else
      let r := probeUrls f rest
      (r.1, u :: r.2)

/-! ### URL resolution: embedding of `_find_emoji_kitchen_url_async` -/

/-- Python truthiness of an `Optional[str]`: `not hex1` is true for `None`
and for the empty string. -/
def pyTruthy : Option String → Bool
  | none => false
  | some s => s != ""

/-- Embedding of `_find_emoji_kitchen_url_async` (main.py lines 68-106):
encode both emojis, bail out to `None` if either hex is falsy, build the
candidate URLs (a template `KeyError` yields `None`), then probe them in
order.  `f` assigns each URL its probe outcome. -/
def findEmojiKitchenUrl (tpl : List TPart) (dateCodes : List String)
    (f : String → ProbeOutcome) (emoji1 emoji2 : List Nat) : Option String :=
  let hex1 := getEmojiHexCode emoji1
  let hex2 := getEmojiHexCode emoji2
  if !(pyTruthy hex1) || !(pyTruthy hex2) then none
  else
    match buildUrls tpl dateCodes (hex1.getD "") (hex2.getD "") with
    | none => none
    | some urls => (probeUrls f urls).1

/-! ### Result delivery: embedding of `_process_and_send_mix` -/

/-- What `_process_and_send_mix` yields back to the host: an image component
built from a URL, or a plain-text message. -/
inductive SendResult
  | image (url : String)
  | plain (txt : String)
deriving DecidableEq

/-- The user-facing failure text of main.py line 130. -/
def notFoundText (e1 e2 : String) : String :=
  "😟 抱歉，无法找到 " ++ e1 ++ " 和 " ++ e2 ++
    " 的混合 Emoji。\n可能是这对组合不存在，或者输入的不是有效的单个 Emoji 哦。"

/-- Embedding of `_process_and_send_mix` (main.py lines 116-132): the
`await` of the URL finder sits in a `try`, so its input here is an `Except`
(an exception or a returned `Optional[str]`); an exception is logged and
turned into `result_url = None`; then either the image or the plain
not-found text is yielded. -/
def processAndSendMix (e1 e2 : String) (findAttempt : Except String (Option String)) :
    SendResult :=
  let resultUrl : Option String :=
    match findAttempt with
    | Except.ok r => r
    | Except.error _ => none
  match resultUrl with
  | some url => SendResult.image url
  | none => SendResult.plain (notFoundText e1 e2)

/-! ### Command handling: embedding of `mix_emoji_command` -/

/-- Python `str.strip()` whitespace class (ASCII part). -/
def isPySpace (c : Char) : Bool :=
  c = ' ' || c = '\t' || c = '\n' || c = '\r' || c = '\x0b' || c = '\x0c'

/-- Python `s.strip()`. -/
def pyStrip (s : String) : String :=
  String.mk (((s.data.dropWhile isPySpace).reverse.dropWhile isPySpace).reverse)

/-- The command-name removal loop of main.py lines 141-146: the first of
`/mixemoji`, `/合成emoji`, `/emojimix` that the text starts with is cut off
and the remainder stripped; otherwise the text is left unchanged. -/
def stripCommandName (t : String) : String :=
  if pyStartsWith t "/mixemoji" then pyStrip (pyDrop t (pyLen "/mixemoji"))
  else if pyStartsWith t "/合成emoji" then pyStrip (pyDrop t (pyLen "/合成emoji"))
  else if pyStartsWith t "/emojimix" then pyStrip (pyDrop t (pyLen "/emojimix"))
  else t

/-- Python `s.replace(pat, '', 1)` on code-point lists: remove the first
occurrence of `pat`. -/
def listReplaceFirst : List Char → List Char → List Char
  | [], _ => []
  | c :: rest, pat =>
    if pat.isPrefixOf (c :: rest) then (c :: rest).drop pat.length
    else c :: listReplaceFirst rest pat

/-- Python `s.replace(pat, '', 1)`. -/
def replaceFirst (s pat : String) : String :=
  String.mk (listReplaceFirst s.data pat.data)

/-- The classified outcome of `mix_emoji_command`.  `mixRequest` is the only
outcome that goes on to `_process_and_send_mix` (and hence to probing); each
other constructor corresponds to one of the plain-text replies of main.py
lines 160-198. -/
inductive CmdOutcome
  | emptyPrompt
  | mixRequest (e1 e2 : String)
  | extraneous (extra : String)
  | needTwo
  | tooMany
  | noEmoji
deriving DecidableEq

/-- Embedding of `mix_emoji_command` (main.py lines 136-201).  `extract`
stands for `self._extract_emojis_from_text` (a thin wrapper over the
external `emoji.emoji_list` library call, main.py lines 109-113), passed in
as a parameter since the library is outside this repository. -/
def mixEmojiCommand (extract : String → List String) (messageStr : String) : CmdOutcome :=
  let inputText := stripCommandName (pyStrip messageStr)
  if inputText = "" then CmdOutcome.emptyPrompt
  else
    let emojis := extract inputText
    if emojis.length = 2 then
      let remaining := emojis.foldl (fun acc e => replaceFirst acc e) inputText
      if pyStrip remaining = "" then CmdOutcome.mixRequest (emojis.getD 0 "") (emojis.getD 1 "")
      else CmdOutcome.extraneous (pyStrip remaining)
    else if emojis.length = 1 then CmdOutcome.needTwo
    else if 2 < emojis.length then CmdOutcome.tooMany
    else CmdOutcome.noEmoji

/-! ### Helper lemmas -/

theorem listLtB_asymm : ∀ as bs : List Char, listLtB as bs = true → listLtB bs as = false := by
  intro as
  induction as with
  | nil =>
    intro bs h
    cases bs with
    | nil => simp [listLtB] at h
    | cons b bs => simp [listLtB]
  | cons a as ih =>
    intro bs h
    cases bs with
    | nil => simp [listLtB] at h
    | cons b bs =>
      rcases lt_trichotomy a b with hab | hab | hab
      · have h1 : ¬b < a := lt_asymm hab
        simp [listLtB, h1, hab]
      · subst hab
        simp [listLtB, lt_irrefl] at h ⊢
        exact ih bs h
      · have h1 : ¬a < b := lt_asymm hab
        simp [listLtB, h1, hab] at h

theorem listLtB_eq_of_not : ∀ as bs : List Char,
    listLtB as bs = false → listLtB bs as = false → as = bs := by
  intro as
  induction as with
  | nil =>
    intro bs h1 h2
    cases bs with
    | nil => rfl
    | cons b bs => simp [listLtB] at h1
  | cons a as ih =>
    intro bs h1 h2
    cases bs with
    | nil => simp [listLtB] at h2
    | cons b bs =>
      rcases lt_trichotomy a b with hab | hab | hab
      · simp [listLtB, hab] at h1
      · subst hab
        simp [listLtB, lt_irrefl] at h1 h2
        rw [ih bs h1 h2]
      · simp [listLtB, hab, lt_asymm hab] at h2

theorem strLt_asymm (a b : String) (h : strLt a b = true) : strLt b a = false :=
  listLtB_asymm a.data b.data h

theorem strLt_eq_of_not (a b : String) (h1 : strLt a b = false) (h2 : strLt b a = false) :
    a = b := by
  have h3 := listLtB_eq_of_not a.data b.data h1 h2
  cases a
  cases b
  exact congrArg String.mk h3

theorem natToHexCore_succ (fuel n : Nat) (acc : List Char) :
    natToHexCore (fuel + 1) n acc =
      if n < 16 then hexDigitChar n :: acc
      else natToHexCore fuel (n / 16) (hexDigitChar (n % 16) :: acc) := rfl

theorem natToHexCore_length : ∀ (fuel n : Nat) (acc : List Char),
    acc.length + 1 ≤ (natToHexCore (fuel + 1) n acc).length := by
  intro fuel
  induction fuel with
  | zero =>
    intro n acc
    rw [natToHexCore_succ]
    split
    · simp
    · simp [natToHexCore]
  | succ f ih =>
    intro n acc
    rw [natToHexCore_succ]
    split
    · simp
    · have h := ih (n / 16) (hexDigitChar (n % 16) :: acc)
      simp only [List.length_cons] at h
      omega

theorem natToHex_ne_empty (n : Nat) : natToHex n ≠ "" := by
  intro h
  have h2 : natToHexCore (n + 1) n [] = ([] : List Char) := congrArg String.data h
  have h3 := natToHexCore_length n n []
  rw [h2] at h3
  simp at h3

theorem hexLoop_nonhigh (l : List Nat) (ec : List Nat)
    (h : ∀ c ∈ l, ¬(0xD800 ≤ c ∧ c ≤ 0xDBFF)) :
    hexLoop l ec = some (l.map natToHex) := by
  induction l generalizing ec with
  | nil => rfl
  | cons c rest ih =>
    have hc := h c (by simp)
    have hrest : ∀ x ∈ rest, ¬(0xD800 ≤ x ∧ x ≤ 0xDBFF) := fun x hx => h x (by simp [hx])
    simp [hexLoop, hc, ih ec hrest]

theorem mem_of_hexLoop_map {o : Option (List String)} {x : String} {res : List String}
    (h : o.map (fun tl => x :: tl) = some res) (s : String) (hs : s ∈ res) (hx : x ≠ "")
    (hrec : ∀ tl, o = some tl → ∀ t ∈ tl, t ≠ "") : s ≠ "" := by
  rcases Option.map_eq_some'.mp h with ⟨tl, htl, hres⟩
  rw [← hres] at hs
  rcases List.mem_cons.mp hs with rfl | hmem
  · exact hx
  · exact hrec tl htl s hmem

theorem hexLoop_ne_empty : ∀ (l ec : List Nat) (res : List String),
    hexLoop l ec = some res → ∀ s ∈ res, s ≠ "" := by
  intro l
  induction l with
  | nil =>
    intro ec res h s hs
    cases h
    simp at hs
  | cons ch rest ih =>
    intro ec res h s hs
    simp only [hexLoop] at h
    split at h
    · split at h
      · exact Option.noConfusion h
      · split at h
        · split at h
          · exact mem_of_hexLoop_map h s hs (natToHex_ne_empty _) (fun tl htl => ih _ tl htl)
          · exact mem_of_hexLoop_map h s hs (natToHex_ne_empty _) (fun tl htl => ih ec tl htl)
        · exact mem_of_hexLoop_map h s hs (natToHex_ne_empty _) (fun tl htl => ih ec tl htl)
    · exact mem_of_hexLoop_map h s hs (natToHex_ne_empty _) (fun tl htl => ih ec tl htl)

theorem natToHex_200d : natToHex 0x200D = "200d" := rfl

theorem natToHex_fe0f : natToHex 0xFE0F = "fe0f" := rfl

theorem filter_strip_all (l : List Nat) (h : ∀ c ∈ l, c = 0x200D ∨ c = 0xFE0F) :
    (l.map natToHex).filter (fun c => c != "200d" && c != "fe0f") = [] := by
  induction l with
  | nil => rfl
  | cons c rest ih =>
    have hrest := ih (fun x hx => h x (by simp [hx]))
    rcases h c (by simp) with rfl | rfl
    · simp [List.filter_cons, natToHex_200d, hrest]
    · simp [List.filter_cons, natToHex_fe0f, hrest]

theorem swap_format_eq (tpl : List TPart) (d h1 h2 : String) :
    (if strLt h2 h1 && h1 != h2 then formatTemplate tpl d h2 h1
     else formatTemplate tpl d h1 h2)
    = (if strLt h1 h2 && h2 != h1 then formatTemplate tpl d h1 h2
       else formatTemplate tpl d h2 h1) := by
  by_cases he : h1 = h2
  · subst he
    simp
  · have hne : (h1 != h2) = true := by simp [he]
    have hne' : (h2 != h1) = true := by simp [Ne.symm he]
    cases hlt : strLt h2 h1 with
    | true =>
      have h3 : strLt h1 h2 = false := strLt_asymm _ _ hlt
      simp [hlt, hne, h3]
    | false =>
      cases hlt2 : strLt h1 h2 with
      | true => simp [hlt, hlt2, hne, hne']
      | false => exact absurd (strLt_eq_of_not _ _ hlt2 hlt) he

theorem str_append_empty (s : String) : s ++ "" = s := by
  cases s with
  | mk l =>
    show String.mk (l ++ []) = String.mk l
    rw [List.append_nil]

theorem str_append_assoc (a b c : String) : a ++ b ++ c = a ++ (b ++ c) := by
  cases a
  cases b
  cases c
  show String.mk _ = String.mk _
  rw [List.append_assoc]

theorem fmt_default_ok (d x y : String) :
    formatTemplate defaultTemplate d x y = Except.ok (defaultUrl d x y) := by
  simp [formatTemplate, defaultTemplate, defaultUrl, Except.map, str_append_assoc,
    str_append_empty]

theorem formatTemplate_unknown : ∀ tpl : List TPart, hasUnknownKey tpl →
    ∀ d x y, ∃ e, formatTemplate tpl d x y = Except.error e := by
  intro tpl
  induction tpl with
  | nil =>
    rintro ⟨k, hk, -⟩
    simp at hk
  | cons p rest ih =>
    rintro ⟨k, hk, hk1, hk2, hk3⟩ d x y
    cases p with
    | lit s =>
      have hmem : TPart.key k ∈ rest := by
        rcases List.mem_cons.mp hk with h | h
        · exact absurd h (by simp)
        · exact h
      rcases ih ⟨k, hmem, hk1, hk2, hk3⟩ d x y with ⟨e, he⟩
      exact ⟨e, by simp [formatTemplate, he, Except.map]⟩
    | key k' =>
      by_cases h1 : k' = "date_code"
      · have hmem : TPart.key k ∈ rest := by
          rcases List.mem_cons.mp hk with h | h
          · injection h with h
            exact absurd (h.trans h1) hk1
          · exact h
        rcases ih ⟨k, hmem, hk1, hk2, hk3⟩ d x y with ⟨e, he⟩
        exact ⟨e, by simp [formatTemplate, h1, he, Except.map]⟩
      · by_cases h2 : k' = "hex1"
        · have hmem : TPart.key k ∈ rest := by
            rcases List.mem_cons.mp hk with h | h
            · injection h with h
              exact absurd (h.trans h2) hk2
            · exact h
          rcases ih ⟨k, hmem, hk1, hk2, hk3⟩ d x y with ⟨e, he⟩
          exact ⟨e, by simp [formatTemplate, h1, h2, he, Except.map]⟩
        · by_cases h3 : k' = "hex2"
          · have hmem : TPart.key k ∈ rest := by
              rcases List.mem_cons.mp hk with h | h
              · injection h with h
                exact absurd (h.trans h3) hk3
              · exact h
            rcases ih ⟨k, hmem, hk1, hk2, hk3⟩ d x y with ⟨e, he⟩
            exact ⟨e, by simp [formatTemplate, h1, h2, h3, he, Except.map]⟩
          · exact ⟨k', by simp [formatTemplate, h1, h2, h3]⟩

theorem buildUrls_unknown (tpl : List TPart) (hk : hasUnknownKey tpl) (d : String)
    (rest : List String) (a b : String) : buildUrls tpl (d :: rest) a b = none := by
  simp only [buildUrls, buildUrlsGo]
  rcases formatTemplate_unknown tpl hk d b a with ⟨e1, he1⟩
  rcases formatTemplate_unknown tpl hk d a b with ⟨e2, he2⟩
  cases hc : (strLt b a && a != b) with
  | true => simp [hc, he1]
  | false => simp [hc, he2]

theorem probe_no_hit (f : String → ProbeOutcome) (l : List String)
    (h : ∀ u ∈ l, isHit (f u) = false) : (probeUrls f l).1 = none := by
  induction l with
  | nil => rfl
  | cons u rest ih =>
    have hu := h u (by simp)
    simp [probeUrls, hu, ih (fun w hw => h w (by simp [hw]))]

/-! ### Claim theorems -/

/-- C1 (counterexample): for the distinct hex identifiers `1f4a9`, `1f60a`
and the two-revision list `[20240315, 20231115]`, the candidate generator
does NOT produce 4 URLs — it produces exactly 2, one per revision, each with
the lexicographically smaller hex in the `hex1` slot.  This refutes the
claim that both orientations are emitted per revision. -/
theorem c1_counterexample :
    (buildUrls defaultTemplate ["20240315", "20231115"] "1f4a9" "1f60a").map List.length
      ≠ some 4 ∧
    buildUrls defaultTemplate ["20240315", "20231115"] "1f4a9" "1f60a" =
      some [defaultUrl "20240315" "1f4a9" "1f60a", defaultUrl "20231115" "1f4a9" "1f60a"] := by
  constructor
  · decide
  · decide

/-- C1 (amended): for every pair of hex identifiers `a`, `b` and revisions
`[r1, r2]`, the generator produces exactly 2 URLs, one per revision in
configuration order, each substituting the lexicographically smaller
identifier as `hex1` and the larger as `hex2` (for `a = b`, the pair
`(a, a)`); the second orientation is never emitted. -/
theorem c1_amended_thm (r1 r2 a b : String) :
    buildUrls defaultTemplate [r1, r2] a b =
      if strLt b a && a != b then some [defaultUrl r1 b a, defaultUrl r2 b a]
      else some [defaultUrl r1 a b, defaultUrl r2 a b] := by
  cases h : (strLt b a && a != b) with
  | true => simp [buildUrls, buildUrlsGo, h, fmt_default_ok]
  | false => simp [buildUrls, buildUrlsGo, h, fmt_default_ok]

/-- C2 (code evaluation at the failing input): for the surrogate pair
`0xD83D 0xDCA9` (U+1F4A9), the encoder recombines the pair and emits
`1f4a9`, but — because reassigning `emoji_char` inside the `for` loop does
not skip the next iterated character, despite the code's own comment saying
it does — it additionally emits the low surrogate's own hex `dca9`, so the
result is `1f4a9-dca9` rather than the claimed single `1f4a9`. -/
theorem c2_code_divergence :
    getEmojiHexCode [0xD83D, 0xDCA9] = some "1f4a9-dca9" ∧
    getEmojiHexCode [0xD83D, 0xDCA9] ≠ some "1f4a9" := by
  constructor
  · rfl
  · decide

/-- C3 (counterexample): with a template referencing the unknown key
`revision` (the code only supplies `date_code`, `hex1`, `hex2`), resolution
of a single request returns `None` even though every probe would succeed,
and the caller then sends the user the ordinary not-found text — so the
condition is handled per request and IS surfaced as a normal user-facing
message, refuting the claim. -/
theorem c3_counterexample :
    findEmojiKitchenUrl [TPart.key "revision"] ["20240315"]
      (fun _ => ProbeOutcome.status 200) [0x1F4A9] [0x1F60A] = none ∧
    processAndSendMix "💩" "😊"
      (Except.ok (findEmojiKitchenUrl [TPart.key "revision"] ["20240315"]
        (fun _ => ProbeOutcome.status 200) [0x1F4A9] [0x1F60A])) =
      SendResult.plain (notFoundText "💩" "😊") := by
  constructor
  · rfl
  · rfl

/-- C3 (amended): when the configured URL template references an unknown
substitution key, the per-request `KeyError` is caught inside
`_find_emoji_kitchen_url_async`, which returns `None`; the request then
completes normally and the user receives the standard not-found message.
The failure is recoverable per request, not a fatal configuration-time
condition. -/
theorem c3_amended_thm (tpl : List TPart) (dateCodes : List String)
    (f : String → ProbeOutcome) (emoji1 emoji2 : List Nat) (hk : hasUnknownKey tpl) :
    findEmojiKitchenUrl tpl dateCodes f emoji1 emoji2 = none ∧
    ∀ s1 s2, processAndSendMix s1 s2
        (Except.ok (findEmojiKitchenUrl tpl dateCodes f emoji1 emoji2)) =
      SendResult.plain (notFoundText s1 s2) := by
  have hfind : findEmojiKitchenUrl tpl dateCodes f emoji1 emoji2 = none := by
    unfold findEmojiKitchenUrl
    dsimp only
    split
    · rfl
    · cases dateCodes with
      | nil => rfl
      | cons d rest => rw [buildUrls_unknown tpl hk d rest]
  refine ⟨hfind, fun s1 s2 => ?_⟩
  rw [hfind]
  rfl

/-- C3 (witness): the amended theorem applied to the concrete template
`{revision}`-only, one revision, all-200 probes. -/
theorem c3_amended_witness :
    findEmojiKitchenUrl [TPart.key "revision"] ["20231115"]
      (fun _ => ProbeOutcome.status 200) [0x1F60A] [0x1F4A9] = none :=
  (c3_amended_thm [TPart.key "revision"] ["20231115"] (fun _ => ProbeOutcome.status 200)
    [0x1F60A] [0x1F4A9] ⟨"revision", by decide, by decide, by decide, by decide⟩).1

/-- C4: the prober returns the first candidate in generator order whose
probe outcome is status 200, and issues requests exactly for the candidates
up to and including it — nothing after it is checked. -/
theorem c4_first_hit (f : String → ProbeOutcome) (pre post : List String) (u : String)
    (hpre : ∀ v ∈ pre, isHit (f v) = false) (hu : isHit (f u) = true) :
    probeUrls f (pre ++ u :: post) = (some u, pre ++ [u]) := by
  induction pre with
  | nil => simp [probeUrls, hu]
  | cons v pre ih =>
    have hv : isHit (f v) = false := hpre v (by simp)
    simp [probeUrls, hv, ih (fun w hw => hpre w (by simp [hw]))]

/-- C4 (witness): with outcomes 404, 200, 200 assigned to `a`, `b`, `c`,
the prober returns `b` and checks only `a` then `b`. -/
theorem c4_witness :
    probeUrls (fun v => if v = "b" then ProbeOutcome.status 200 else ProbeOutcome.status 404)
      (["a"] ++ "b" :: ["c"]) = (some "b", ["a"] ++ ["b"]) :=
  c4_first_hit (fun v => if v = "b" then ProbeOutcome.status 200 else ProbeOutcome.status 404)
    ["a"] ["c"] "b" (by decide) (by decide)

/-- C5: if every candidate's probe ends in a timeout or a network error,
the prober returns `none` (NotFound), and this is the same outcome as when
every candidate returns a non-200 status. -/
theorem c5_transient_eq_absent (f g : String → ProbeOutcome) (l₁ l₂ : List String)
    (h₁ : ∀ u ∈ l₁, f u = ProbeOutcome.timeout ∨ f u = ProbeOutcome.netError)
    (h₂ : ∀ u ∈ l₂, ∃ c, g u = ProbeOutcome.status c ∧ c ≠ 200) :
    (probeUrls f l₁).1 = none ∧ (probeUrls f l₁).1 = (probeUrls g l₂).1 := by
  have k₁ : (probeUrls f l₁).1 = none := probe_no_hit f l₁ (by
    intro u hu
    rcases h₁ u hu with h | h <;> simp [isHit, h])
  have k₂ : (probeUrls g l₂).1 = none := probe_no_hit g l₂ (by
    intro u hu
    rcases h₂ u hu with ⟨c, hc, hne⟩
    simp [isHit, hc, hne])
  exact ⟨k₁, k₁.trans k₂.symm⟩

/-- C5 (witness): two all-timeout candidates give `none`, equal to the
result for one 404 candidate. -/
theorem c5_witness :
    (probeUrls (fun _ => ProbeOutcome.timeout) ["u1", "u2"]).1 = none :=
  (c5_transient_eq_absent (fun _ => ProbeOutcome.timeout) (fun _ => ProbeOutcome.status 404)
    ["u1", "u2"] ["u1"] (by decide)
    (by intro u hu; exact ⟨404, rfl, by decide⟩)).1

/-- C6: whatever the URL finder produces — a URL, `None`, or a raised
exception — `_process_and_send_mix` always yields a structured result
(an image or the plain not-found text), and an exception is converted to
the not-found outcome; nothing propagates to the caller. -/
theorem c6_fail_soft (e1 e2 : String) (r : Except String (Option String)) :
    ((∃ u, processAndSendMix e1 e2 r = SendResult.image u) ∨
      processAndSendMix e1 e2 r = SendResult.plain (notFoundText e1 e2)) ∧
    (∀ err, processAndSendMix e1 e2 (Except.error err) =
      SendResult.plain (notFoundText e1 e2)) := by
  constructor
  · rcases r with err | o
    · right
      rfl
    · rcases o with _ | u
      · right
        rfl
      · left
        exact ⟨u, rfl⟩
  · intro err
    rfl

theorem str_data_append (a b : String) : (a ++ b).data = a.data ++ b.data := by
  cases a
  cases b
  rfl

/-- C7: a single code point that is not a high surrogate and whose hex is
neither `200d` nor `fe0f` encodes to its plain lowercase hex; a
`c1 ZWJ c2` cluster (no surrogates, neither hex filtered) encodes to the
two hex segments joined by `-`, with the joiner's code point excluded. -/
theorem c7_encode_shapes :
    (∀ c : Nat, ¬(0xD800 ≤ c ∧ c ≤ 0xDBFF) → natToHex c ≠ "200d" → natToHex c ≠ "fe0f" →
      getEmojiHexCode [c] = some (natToHex c)) ∧
    (∀ c1 c2 : Nat, ¬(0xD800 ≤ c1 ∧ c1 ≤ 0xDBFF) → ¬(0xD800 ≤ c2 ∧ c2 ≤ 0xDBFF) →
      natToHex c1 ≠ "200d" → natToHex c1 ≠ "fe0f" →
      natToHex c2 ≠ "200d" → natToHex c2 ≠ "fe0f" →
      getEmojiHexCode [c1, 0x200D, c2] = some (natToHex c1 ++ "-" ++ natToHex c2)) := by
  constructor
  · intro c hhigh h1 h2
    unfold getEmojiHexCode
    rw [hexLoop_nonhigh [c] [c] (by
      intro x hx
      simp at hx
      subst hx
      exact hhigh)]
    have b1 : (natToHex c != "200d" && natToHex c != "fe0f") = true := by simp [h1, h2]
    simp [List.filter_cons, b1, hyphenJoin]
  · intro c1 c2 hh1 hh2 h1 h2 h3 h4
    unfold getEmojiHexCode
    rw [hexLoop_nonhigh [c1, 0x200D, c2] [c1, 0x200D, c2] (by
      intro x hx
      simp at hx
      rcases hx with rfl | rfl | rfl
      · exact hh1
      · decide
      · exact hh2)]
    have b1 : (natToHex c1 != "200d" && natToHex c1 != "fe0f") = true := by simp [h1, h2]
    have b2 : (natToHex 0x200D != "200d" && natToHex 0x200D != "fe0f") = false := by decide
    have b3 : (natToHex c2 != "200d" && natToHex c2 != "fe0f") = true := by simp [h3, h4]
    simp [List.filter_cons, b1, b2, b3, hyphenJoin]

/-- C7 (witness): `😊` (U+1F60A) and `👨‍💻` (U+1F468 ZWJ U+1F4BB). -/
theorem c7_witness :
    getEmojiHexCode [0x1F60A] = some (natToHex 0x1F60A) ∧
    getEmojiHexCode [0x1F468, 0x200D, 0x1F4BB] =
      some (natToHex 0x1F468 ++ "-" ++ natToHex 0x1F4BB) :=
  ⟨c7_encode_shapes.1 0x1F60A (by decide) (by decide) (by decide),
   c7_encode_shapes.2 0x1F468 0x1F4BB (by decide) (by decide) (by decide) (by decide)
     (by decide) (by decide)⟩

/-- C8: a cluster consisting only of joiners (U+200D) and variation
selectors (U+FE0F) makes the encoder return `none` (the failure value), and
the encoder can never return the empty-string identifier. -/
theorem c8_empty_fails :
    (∀ l : List Nat, (∀ c ∈ l, c = 0x200D ∨ c = 0xFE0F) → getEmojiHexCode l = none) ∧
    (∀ l : List Nat, getEmojiHexCode l ≠ some "") := by
  constructor
  · intro l h
    have hnon : ∀ c ∈ l, ¬(0xD800 ≤ c ∧ c ≤ 0xDBFF) := by
      intro c hc
      rcases h c hc with rfl | rfl <;> decide
    unfold getEmojiHexCode
    rw [hexLoop_nonhigh l l hnon]
    dsimp only
    rw [filter_strip_all l h]
  · intro l h
    unfold getEmojiHexCode at h
    cases hl : hexLoop l l with
    | none =>
      rw [hl] at h
      exact Option.noConfusion h
    | some codes =>
      rw [hl] at h
      dsimp only at h
      cases hf : codes.filter (fun c => c != "200d" && c != "fe0f") with
      | nil =>
        rw [hf] at h
        exact Option.noConfusion h
      | cons c rest =>
        rw [hf] at h
        dsimp only at h
        have hj : hyphenJoin (c :: rest) = "" := Option.some.inj h
        have hcne : c ≠ "" := by
          refine hexLoop_ne_empty l l codes hl c (List.mem_of_mem_filter (p := fun c => c != "200d" && c != "fe0f") ?_)
          rw [hf]
          simp
        cases rest with
        | nil => exact hcne hj
        | cons r rs =>
          have hj2 : c ++ "-" ++ hyphenJoin (r :: rs) = "" := hj
          have hd := congrArg String.data hj2
          rw [str_data_append, str_data_append] at hd
          rw [show ("-" : String).data = ['-'] from rfl] at hd
          rw [show ("" : String).data = ([] : List Char) from rfl] at hd
          simp at hd

/-- C8 (witness): a joiner plus a variation selector fails; a lone
variation selector never yields the empty identifier. -/
theorem c8_witness :
    getEmojiHexCode [0x200D, 0xFE0F] = none ∧ getEmojiHexCode [0xFE0F] ≠ some "" :=
  ⟨c8_empty_fails.1 [0x200D, 0xFE0F] (by decide), c8_empty_fails.2 [0xFE0F]⟩

/-- C9: for nonempty command-argument text, if extraction yields exactly one
emoji cluster the command answers the need-two-emoji reply, if it yields
three or more it answers the too-many-emoji reply, and in neither case (nor
for any other count different from two) is a mix request — the only path to
probing — produced. -/
theorem c9_wrong_count (extract : String → List String) (msg : String)
    (hne : stripCommandName (pyStrip msg) ≠ "") :
    ((extract (stripCommandName (pyStrip msg))).length = 1 →
      mixEmojiCommand extract msg = CmdOutcome.needTwo) ∧
    (2 < (extract (stripCommandName (pyStrip msg))).length →
      mixEmojiCommand extract msg = CmdOutcome.tooMany) ∧
    ((extract (stripCommandName (pyStrip msg))).length ≠ 2 →
      ∀ a b, mixEmojiCommand extract msg ≠ CmdOutcome.mixRequest a b) := by
  refine ⟨?_, ?_, ?_⟩
  · intro h1
    simp [mixEmojiCommand, hne, h1]
  · intro h1
    have h2 : (extract (stripCommandName (pyStrip msg))).length ≠ 1 := by omega
    have h3 : (extract (stripCommandName (pyStrip msg))).length ≠ 2 := by omega
    simp [mixEmojiCommand, hne, h1, h2, h3]
  · intro h1 a b
    rcases hlen : (extract (stripCommandName (pyStrip msg))).length with _ | n
    · simp [mixEmojiCommand, hne, hlen]
    · rcases n with _ | m
      · simp [mixEmojiCommand, hne, hlen]
      · rw [hlen] at h1
        have h4 : (extract (stripCommandName (pyStrip msg))).length ≠ 2 := by
          rw [hlen]
          exact h1
        have h5 : (extract (stripCommandName (pyStrip msg))).length ≠ 1 := by
          rw [hlen]
          omega
        have h6 : 2 < (extract (stripCommandName (pyStrip msg))).length := by
          rw [hlen]
          omega
        simp [mixEmojiCommand, hne, h4, h5, h6]

/-- C9 (witness): `/mixemoji 👍` with an extractor that finds one cluster. -/
theorem c9_witness :
    mixEmojiCommand (fun _ => ["👍"]) "/mixemoji 👍" = CmdOutcome.needTwo :=
  (c9_wrong_count (fun _ => ["👍"]) "/mixemoji 👍" (by decide)).1 (by decide)

/-- C10: the candidate URL list is invariant under swapping the two hex
identifiers, for every template and revision list — the generator
normalizes the pair by lexicographic comparison before substitution, so
resolution is commutative in its two emoji arguments. -/
theorem c10_commutative (tpl : List TPart) (dateCodes : List String) (h1 h2 : String) :
    buildUrls tpl dateCodes h1 h2 = buildUrls tpl dateCodes h2 h1 := by
  unfold buildUrls
  induction dateCodes with
  | nil => rfl
  | cons d rest ih =>
    simp only [buildUrlsGo]
    rw [swap_format_eq]
    simp only [ih]

end EmojiMix
